import Mathlib

/-!
# Roche: the OpenGL wrapper layer (`opengl.cpp`)

A shallow embedding of `Renderable::generateSphere`, `Renderable::render`,
`Shader::uniform`, `Shader::load`, `Texture::Texture`, `Texture::create` and
`Texture::update`, followed by the properties of the specification that concern
them.

Conventions of the embedding.

* C++ `int` values are integers in the range of a 32-bit `int`.  Every `int`
  addition and multiplication of `generateSphere` is followed by `wrap32`, the
  reduction modulo `2 ^ 32` into that range: signed overflow is undefined in
  C++, and the compiled code wraps.
* `float` and `double` values are the rationals they denote.  Every arithmetic
  operation is the exact rational operation followed by IEEE-754
  round-to-nearest-even into binary32 (`toFloat`) or binary64 (`toDouble`).
  The only non-finite value the modelled code can produce is the quotient
  `1.0/0`; it is represented by `none` in `floatStep`.
* Calls into the graphics library are recorded, in program order, as data: a
  list of `GLCall` for shaders and textures, a `SphereUpload` for the two
  buffers of a sphere.  What the graphics library answers (object names, status
  flags, logs, active uniforms) is an argument of the operation.
* A loop whose trip count is not bounded by its text (the `float` loops) takes
  a `fuel` argument and returns `none` when the fuel runs out.
-/

namespace Roche

/-! ## IEEE-754 rounding on rationals -/

/-- The rational `2 ^ e` for an integer exponent. -/
def pow2 (e : Int) : ℚ :=
  if 0 ≤ e then ((2 ^ e.toNat : Nat) : ℚ) else 1 / ((2 ^ (-e).toNat : Nat) : ℚ)

/-- Binary logarithm by repeated halving; `fuel` bounds the number of halvings. -/
def log2Fuel : Nat → Nat → Nat
  | 0, _ => 0
  | fuel + 1, n => if n < 2 then 0 else log2Fuel fuel (n / 2) + 1

/-- Floor of the binary logarithm of a natural number (`0` for `0`). -/
def natLog2 (n : Nat) : Nat := log2Fuel n n

/-- Floor of the binary logarithm of `|q|`, for `q ≠ 0`. -/
def ilog2 (q : ℚ) : Int :=
  let k : Int := (natLog2 q.num.natAbs : Int) - (natLog2 q.den : Int)
  if pow2 k ≤ |q| then k else k - 1

/-- Round `q` to the nearest number with a `prec`-bit significand and exponent at
least `emin` (below `2 ^ emin` the spacing is that of the subnormals), ties to the
even significand.  Overflow to infinity is not represented: the values rounded
in this file stay below `4`. -/
def roundNearestEven (prec : Nat) (emin : Int) (q : ℚ) : ℚ :=
  if q = 0 then 0 else
  let e := max (ilog2 q) emin
  let ulp := pow2 (e - ((prec : Int) - 1))
  let t := |q| / ulp
  let f : Int := t.floor
  let r := t - f
  let n : Int :=
    if r < 1 / 2 then f else if 1 / 2 < r then f + 1 else if f % 2 = 0 then f else f + 1
  (if q < 0 then -1 else 1) * n * ulp

/-- Conversion to `float` (binary32). -/
def toFloat (q : ℚ) : ℚ := roundNearestEven 24 (-126) q

/-- Conversion to `double` (binary64). -/
def toDouble (q : ℚ) : ℚ := roundNearestEven 53 (-1022) q

/-- The loop update `x += 1.0/res` of a `float` counter `x` with an `int`
resolution `res`: the quotient is a `double` division, the sum a `double`
addition, the assignment a conversion to `float`.  `none` stands for `+∞`, the
value of `1.0/0` and of every sum with it. -/
def floatStep (x : ℚ) (res : Int) : Option ℚ :=
  if res = 0 then none else some (toFloat (toDouble (x + toDouble (1 / (res : ℚ)))))

/-! ## Machine integers -/

/-- The 32-bit `int` an integer denotes after two's-complement wrap-around. -/
def wrap32 (x : Int) : Int := (x + 2147483648) % 4294967296 - 2147483648

/-! ## Renderable -/

/-- The macro `#define PLANET_STRIDE 24`. -/
def PLANET_STRIDE : Int := 24

/-- The arithmetic a vertex record is computed with: the two conversions, the
`cos` and `sin` of the C library (not part of the repository) and the constant
`PI`. -/
structure Arith (α : Type) where
  toFloat : α → α
  toDouble : α → α
  cos : α → α
  sin : α → α
  PI : α

/-- The machine arithmetic: binary32/binary64 rounding, the C library's `cos`
and `sin` on doubles as arguments, and the macro `PI` as a `double` literal. -/
def machineArith (cos sin : ℚ → ℚ) : Arith ℚ where
  toFloat := Roche.toFloat
  toDouble := Roche.toDouble
  cos := cos
  sin := sin
  PI := Roche.toDouble (314159265358979323846264338327950288 / 10 ^ 35)

/-- The statement `float cosphi = cos(PI*(phi-0.5));`. -/
def cosphi {α : Type} [Field α] (A : Arith α) (phi : α) : α :=
  A.toFloat (A.cos (A.toDouble (A.PI * A.toDouble (phi - 1 / 2))))

/-- The statement `float sinphi = sin(PI*(phi-0.5));`. -/
def sinphi {α : Type} [Field α] (A : Arith α) (phi : α) : α :=
  A.toFloat (A.sin (A.toDouble (A.PI * A.toDouble (phi - 1 / 2))))

/-- The statement `float costheta = cos(theta*PI*2);`. -/
def costheta {α : Type} [Field α] (A : Arith α) (theta : α) : α :=
  A.toFloat (A.cos (A.toDouble (A.toDouble (theta * A.PI) * 2)))

/-- The statement `float sintheta = sin(theta*PI*2);`. -/
def sintheta {α : Type} [Field α] (A : Arith α) (theta : α) : α :=
  A.toFloat (A.sin (A.toDouble (A.toDouble (theta * A.PI) * 2)))

/-- The six floats of one vertex record:
`{cosphi*costheta, cosphi*sintheta, sinphi, 1.0, theta, 1.0f-phi}`. -/
def vertex_data {α : Type} [Field α] (A : Arith α) (theta phi : α) : List α :=
  [A.toFloat (cosphi A phi * costheta A theta),
   A.toFloat (cosphi A phi * sintheta A theta),
   sinphi A phi,
   A.toFloat 1,
   theta,
   A.toFloat (1 - phi)]

/-- One `glBufferSubData(target, offset, size, data)` call. -/
structure BufferWrite (α : Type) where
  offset : Int
  size : Int
  data : List α
deriving DecidableEq

/-- The inner vertex loop `for (float theta=0;theta<=1.0;theta += 1.0/theta_res)`.
`body theta offset` is what one iteration writes; the result is the list of
writes and the value of `offset` after the loop. -/
def thetaLoop {β : Type} (body : ℚ → Int → β) (theta_res : Int) :
    Nat → ℚ → Int → Option (List β × Int)
  | 0, _, _ => none
  | fuel + 1, theta, offset =>
    if theta ≤ 1 then
      match floatStep theta theta_res with
      | none => some ([body theta offset], wrap32 (offset + 1))
      | some theta' =>
        (thetaLoop body theta_res fuel theta' (wrap32 (offset + 1))).map
          (fun r => (body theta offset :: r.1, r.2))
    else some ([], offset)

/-- The outer vertex loop `for (float phi=0;phi<=1.0;phi += 1.0/phi_res)`; each
inner loop is run with `inner` units of fuel. -/
def phiLoop {β : Type} (body : ℚ → ℚ → Int → β) (theta_res phi_res : Int) (inner : Nat) :
    Nat → ℚ → Int → Option (List β × Int)
  | 0, _, _ => none
  | fuel + 1, phi, offset =>
    if phi ≤ 1 then
      match thetaLoop (body phi) theta_res inner 0 offset with
      | none => none
      | some row =>
        match floatStep phi phi_res with
        | none => some row
        | some phi' =>
          (phiLoop body theta_res phi_res inner fuel phi' row.2).map
            (fun r => (row.1 ++ r.1, r.2))
    else some ([], offset)

/-- The body of the vertex loops: the write
`glBufferSubData(GL_ARRAY_BUFFER, offset*PLANET_STRIDE, PLANET_STRIDE, vertex_data)`. -/
def vertexWrite (A : Arith ℚ) (phi theta : ℚ) (offset : Int) : BufferWrite ℚ :=
  ⟨wrap32 (offset * PLANET_STRIDE), PLANET_STRIDE, vertex_data A theta phi⟩

/-- The six indices of grid cell `(i, j)`:
the array initialiser of `indices` and the two overwrites under `!exterior`. -/
def indices (phi_res exterior i j : Int) : List Int :=
  let i1 := wrap32 (i + 1)
  let j1 := wrap32 (j + 1)
  let indices := [wrap32 (wrap32 (i * wrap32 (phi_res + 1)) + j),
    wrap32 (wrap32 (i1 * wrap32 (phi_res + 1)) + j),
    wrap32 (wrap32 (i1 * wrap32 (phi_res + 1)) + j1),
    wrap32 (wrap32 (i1 * wrap32 (phi_res + 1)) + j1),
    wrap32 (wrap32 (i * wrap32 (phi_res + 1)) + j1),
    wrap32 (wrap32 (i * wrap32 (phi_res + 1)) + j)]
  if exterior = 0 then
    (indices.set 1 (wrap32 (wrap32 (i * wrap32 (phi_res + 1)) + j1))).set 4
      (wrap32 (wrap32 (i1 * wrap32 (phi_res + 1)) + j))
  else indices

/-- The inner index loop `for (int j=0;j<theta_res;++j)`, with `n` iterations
left, the current `j` and `offset`; each iteration is the write
`glBufferSubData(GL_ELEMENT_ARRAY_BUFFER, offset*24, 24, indices)`.  For a
`theta_res` in the `int` range the counter runs from `0` to `theta_res - 1`, that
is `theta_res.toNat` iterations. -/
def jLoop (phi_res exterior i : Int) : Nat → Int → Int → List (BufferWrite Int) × Int
  | 0, _, offset => ([], offset)
  | n + 1, j, offset =>
    let r := jLoop phi_res exterior i n (wrap32 (j + 1)) (wrap32 (offset + 1))
    (⟨wrap32 (offset * 24), 24, indices phi_res exterior i j⟩ :: r.1, r.2)

/-- The outer index loop `for (int i=0;i<phi_res;++i)`, with `n` iterations left. -/
def iLoop (theta_res phi_res exterior : Int) : Nat → Int → Int → List (BufferWrite Int) × Int
  | 0, _, offset => ([], offset)
  | n + 1, i, offset =>
    let row := jLoop phi_res exterior i theta_res.toNat 0 offset
    let r := iLoop theta_res phi_res exterior n (wrap32 (i + 1)) row.2
    (row.1 ++ r.1, r.2)

/-- The fields of `Renderable` that `opengl.cpp` uses. -/
structure Renderable where
  vbo : Nat
  ibo : Nat
  count : Int
deriving DecidableEq

/-- The buffer traffic of one `generateSphere` call: the sizes of the two
`glBufferData` allocations and the `glBufferSubData` writes to each buffer, in
program order. -/
structure SphereUpload where
  vboBytes : Int
  vertexWrites : List (BufferWrite ℚ)
  iboBytes : Int
  indexWrites : List (BufferWrite Int)

/-- The index half of `generateSphere` (from `offset=0;` on), a total function:
the index writes and the final value of `count = offset*6`. -/
def indexPhase (theta_res phi_res exterior : Int) : List (BufferWrite Int) × Int :=
  let r := iLoop theta_res phi_res exterior phi_res.toNat 0 0
  (r.1, wrap32 (r.2 * 6))

/-- The method `void Renderable::generateSphere(int theta_res, int phi_res, int exterior)`.
`vboName` and `iboName` are the names `glGenBuffers` hands out. -/
def Renderable.generateSphere (fuel : Nat) (A : Arith ℚ) (vboName iboName : Nat)
    (_self : Renderable) (theta_res phi_res exterior : Int) :
    Option (Renderable × SphereUpload) :=
  match phiLoop (vertexWrite A) theta_res phi_res fuel fuel 0 0 with
  | none => none
  | some verts =>
    let idx := indexPhase theta_res phi_res exterior
    some (⟨vboName, iboName, idx.2⟩,
      ⟨wrap32 (wrap32 (wrap32 (theta_res + 1) * wrap32 (phi_res + 1)) * PLANET_STRIDE),
        verts.1, wrap32 (verts.2 * 24), idx.1⟩)

/-! ## Graphics library calls -/

/-- A `GLenum` value.  The constants below carry the values of the OpenGL
headers. -/
abbrev GLenum := Nat

def GL_FALSE : Nat := 0
def GL_TRIANGLES : GLenum := 0x0004
def GL_INT : GLenum := 0x1404
def GL_UNSIGNED_INT : GLenum := 0x1405
def GL_FLOAT : GLenum := 0x1406
def GL_TEXTURE_2D : GLenum := 0x0DE1
def GL_LINEAR : GLenum := 0x2601
def GL_LINEAR_MIPMAP_LINEAR : GLenum := 0x2703
def GL_TEXTURE_MAG_FILTER : GLenum := 0x2800
def GL_TEXTURE_MIN_FILTER : GLenum := 0x2801
def GL_TEXTURE_BASE_LEVEL : GLenum := 0x813C
def GL_TEXTURE_MAX_LEVEL : GLenum := 0x813D
def GL_TEXTURE_MAX_ANISOTROPY_EXT : GLenum := 0x84FE
def GL_MAX_TEXTURE_MAX_ANISOTROPY_EXT : GLenum := 0x84FF
def GL_ARRAY_BUFFER : GLenum := 0x8892
def GL_ELEMENT_ARRAY_BUFFER : GLenum := 0x8893
def GL_FRAGMENT_SHADER : GLenum := 0x8B30
def GL_VERTEX_SHADER : GLenum := 0x8B31
def GL_FLOAT_VEC2 : GLenum := 0x8B50
def GL_FLOAT_VEC3 : GLenum := 0x8B51
def GL_FLOAT_VEC4 : GLenum := 0x8B52
def GL_INT_VEC2 : GLenum := 0x8B53
def GL_INT_VEC3 : GLenum := 0x8B54
def GL_INT_VEC4 : GLenum := 0x8B55
def GL_FLOAT_MAT2 : GLenum := 0x8B5A
def GL_FLOAT_MAT3 : GLenum := 0x8B5B
def GL_FLOAT_MAT4 : GLenum := 0x8B5C
def GL_COMPILE_STATUS : GLenum := 0x8B81
def GL_LINK_STATUS : GLenum := 0x8B82
def GL_ACTIVE_UNIFORMS : GLenum := 0x8B86
def GL_ACTIVE_UNIFORM_MAX_LENGTH : GLenum := 0x8B87

/-- The memory a `void*` argument points to. -/
abbrev Bytes := List Nat

/-- The uniform setters a `UniformFunc` can hold. -/
inductive GLSetter where
  | glUniform1fv | glUniform2fv | glUniform3fv | glUniform4fv
  | glUniform1iv | glUniform2iv | glUniform3iv | glUniform4iv
  | glUniformMatrix2fv | glUniformMatrix3fv | glUniformMatrix4fv
deriving DecidableEq

/-- The graphics library calls issued by the texture, shader and draw code. -/
inductive GLCall where
  | genTextures (n : Int) (name : Nat)
  | bindTexture (target : GLenum) (texture : Nat)
  | texParameteri (target pname : GLenum) (param : Int)
  | texParameterf (target pname : GLenum) (param : ℚ)
  | getFloatv (pname : GLenum)
  | compressedTexImage2D (target : GLenum) (level : Int) (internalformat : GLenum)
      (width height border imageSize : Int) (data : Bytes)
  | texImage2D (target : GLenum) (level : Int) (internalformat : GLenum)
      (width height border : Int) (format : GLenum) (type : Int) (data : Bytes)
  | createShader (type : GLenum)
  | shaderSource (shader : Nat) (count : Int) (source : String)
  | compileShader (shader : Nat)
  | getShaderiv (shader : Nat) (pname : GLenum)
  | getShaderInfoLog (shader : Nat) (bufSize : Int)
  | attachShader (program shader : Nat)
  | linkProgram (program : Nat)
  | getProgramiv (program : Nat) (pname : GLenum)
  | deleteShader (shader : Nat)
  | getActiveUniform (program : Nat) (index : Int) (bufSize : Int)
  | getUniformLocation (program : Nat) (name : String)
  | uniformVector (f : GLSetter) (location count : Int) (value : Bytes)
  | uniformMatrix (f : GLSetter) (location count : Int) (transpose : Nat) (value : Bytes)
  | bindBuffer (target : GLenum) (buffer : Nat)
  | vertexAttribPointer (index : Nat) (size : Int) (type : GLenum) (normalized : Nat)
      (stride : Int) (pointer : Nat)
  | drawElements (mode : GLenum) (count : Int) (type : GLenum)
deriving DecidableEq

/-- The method `void Renderable::render()`: the calls it issues. -/
def Renderable.render (self : Renderable) : List GLCall :=
  [.bindBuffer GL_ARRAY_BUFFER self.vbo,
   .bindBuffer GL_ELEMENT_ARRAY_BUFFER self.ibo,
   .vertexAttribPointer 0 4 GL_FLOAT GL_FALSE 24 0,
   .vertexAttribPointer 1 2 GL_FLOAT GL_FALSE 24 16,
   .drawElements GL_TRIANGLES self.count GL_UNSIGNED_INT]

/-! ## Shader -/

/-- One entry of the uniform table.  `func` is the pointer stored in the
`UniformFunc` union, read as `func.mat` or `func.vec` according to `matrix`. -/
structure Uniform where
  name : String
  location : Int
  size : Int
  matrix : Bool
  func : GLSetter
deriving DecidableEq

/-- The fields of `Shader`. -/
structure Shader where
  program : Nat
  uniforms : List Uniform
deriving DecidableEq

/-- The loop of `Shader::uniform` over the table from position `u` on: the calls
issued for the first descriptor whose name is `name`, none if there is no such
descriptor. -/
def uniformScan (name : String) (value : Bytes) : List Uniform → List GLCall
  | [] => []
  | u :: rest =>
    if name = u.name then
      if u.matrix then [.uniformMatrix u.func u.location u.size GL_FALSE value]
      else [.uniformVector u.func u.location u.size value]
    else uniformScan name value rest

/-- The method `void Shader::uniform(const std::string &name, const void *value)`: the
shader after the call and the calls issued. -/
def Shader.uniform (self : Shader) (name : String) (value : Bytes) : Shader × List GLCall :=
  (self, uniformScan name value self.uniforms)

/-- What `glGetActiveUniform` and `glGetUniformLocation` answer for one active
uniform. -/
structure ActiveUniform where
  name : String
  size : Int
  type : GLenum
  location : Int
deriving DecidableEq

/-- What the graphics library answers during one `Shader::load`. -/
structure LoadAnswers where
  vertex_id : Nat
  vertexSuccess : Int
  vertexLog : String
  fragment_id : Nat
  fragmentSuccess : Int
  fragmentLog : String
  linkSuccess : Int
  programLog : String
  max_char : Int
  activeUniforms : List ActiveUniform

/-- The `switch(type)` of `Shader::load`: the setter stored in the descriptor. -/
def setterOf (type : GLenum) : GLSetter :=
  if type = GL_FLOAT then .glUniform1fv
  else if type = GL_FLOAT_VEC2 then .glUniform2fv
  else if type = GL_FLOAT_VEC3 then .glUniform3fv
  else if type = GL_FLOAT_VEC4 then .glUniform4fv
  else if type = GL_INT then .glUniform1iv
  else if type = GL_INT_VEC2 then .glUniform2iv
  else if type = GL_INT_VEC3 then .glUniform3iv
  else if type = GL_INT_VEC4 then .glUniform4iv
  else if type = GL_FLOAT_MAT2 then .glUniformMatrix2fv
  else if type = GL_FLOAT_MAT3 then .glUniformMatrix3fv
  else if type = GL_FLOAT_MAT4 then .glUniformMatrix4fv
  else .glUniform1iv

/-- One iteration of the uniform loop of `Shader::load`: the two queries and the
descriptor pushed onto the table. -/
def loadUniform (program : Nat) (max_char : Int) (i : Int) (a : ActiveUniform) :
    List GLCall × Uniform :=
  ([.getActiveUniform program i max_char, .getUniformLocation program a.name],
   { name := a.name, location := a.location, size := a.size,
     matrix := a.type = GL_FLOAT_MAT2 || a.type = GL_FLOAT_MAT3 || a.type = GL_FLOAT_MAT4,
     func := setterOf a.type })

/-- The uniform loop of `Shader::load`, from index `i` on. -/
def loadUniforms (program : Nat) (max_char : Int) :
    Int → List ActiveUniform → List GLCall × List Uniform
  | _, [] => ([], [])
  | i, a :: rest =>
    let one := loadUniform program max_char i a
    let more := loadUniforms program max_char (i + 1) rest
    (one.1 ++ more.1, one.2 :: more.2)

/-- The lines a compile or link step prints: the log if it is not empty, the
failure message if the status is zero. -/
def report (logTitle failure : String) (log : String) (success : Int) : List String :=
  (if log.length ≠ 0 then [logTitle ++ log] else []) ++ (if success = 0 then [failure] else [])

/-- The result of `Shader::load`. -/
structure LoadResult where
  ret : Bool
  shader : Shader
  calls : List GLCall
  out : List String

/-- The method
`bool Shader::load(const std::string &vert_source, const std::string &frag_source)`. -/
def Shader.load (self : Shader) (gl : LoadAnswers) (vert_source frag_source : String) :
    LoadResult :=
  let LOG_SIZE : Int := 1024
  let compileCalls : List GLCall :=
    [.createShader GL_VERTEX_SHADER,
     .shaderSource gl.vertex_id 1 vert_source,
     .compileShader gl.vertex_id,
     .getShaderiv gl.vertex_id GL_COMPILE_STATUS,
     .getShaderInfoLog gl.vertex_id LOG_SIZE,
     .createShader GL_FRAGMENT_SHADER,
     .shaderSource gl.fragment_id 1 frag_source,
     .compileShader gl.fragment_id,
     .getShaderiv gl.fragment_id GL_COMPILE_STATUS,
     .getShaderInfoLog gl.fragment_id LOG_SIZE]
  let linkCalls : List GLCall :=
    [.attachShader self.program gl.vertex_id,
     .attachShader self.program gl.fragment_id,
     .linkProgram self.program,
     .getProgramiv self.program GL_LINK_STATUS,
     .getShaderInfoLog self.program LOG_SIZE]
  let out : List String :=
    report "VERTEX SHADER LOG :\n " "VERTEX SHADER FAILED TO COMPILE" gl.vertexLog
        gl.vertexSuccess
    ++ report "FRAGMENT SHADER LOG :\n " "FRAGMENT SHADER FAILED TO COMPILE" gl.fragmentLog
        gl.fragmentSuccess
    ++ report "SHADER PROGRAM LOG :\n " "SHADER PROGRAM FAILED TO LINK" gl.programLog
        gl.linkSuccess
  if gl.linkSuccess = 0 then
    ⟨false, self, compileCalls ++ linkCalls, out⟩
  else
    let us := loadUniforms self.program gl.max_char 0 gl.activeUniforms
    ⟨true, { self with uniforms := self.uniforms ++ us.2 },
      compileCalls ++ linkCalls
        ++ [.deleteShader gl.vertex_id, .deleteShader gl.fragment_id,
            .getProgramiv self.program GL_ACTIVE_UNIFORMS,
            .getProgramiv self.program GL_ACTIVE_UNIFORM_MAX_LENGTH]
        ++ us.1,
      out⟩

/-! ## Texture -/

/-- The fields of `Texture`. -/
structure Texture where
  created : Bool
  id : Nat
  max_level : Int
  base_level : Int
deriving DecidableEq

/-- The fields of `TexMipmapData` that `Texture::update` reads; `data` is the
shared pointer, `none` when it is null. -/
structure TexMipmapData where
  compressed : Bool
  level : Int
  internalFormat : GLenum
  width : Int
  height : Int
  size_or_type : Int
  data : Option Bytes
deriving DecidableEq

/-- The constructor `Texture::Texture()`; it leaves `id` as it finds it. -/
def Texture.ctor (id : Nat) : Texture :=
  { created := false, id := id, max_level := -1, base_level := -1 }

/-- The method `void Texture::create()`; `name` is the name `glGenTextures` hands out and
`aniso` the value `glGetFloatv` reports. -/
def Texture.create (self : Texture) (name : Nat) (aniso : ℚ) : Texture × List GLCall :=
  if !self.created then
    ({ self with id := name, created := true },
     [.genTextures 1 name,
      .bindTexture GL_TEXTURE_2D name,
      .texParameteri GL_TEXTURE_2D GL_TEXTURE_MAG_FILTER GL_LINEAR,
      .texParameteri GL_TEXTURE_2D GL_TEXTURE_MIN_FILTER GL_LINEAR_MIPMAP_LINEAR,
      .getFloatv GL_MAX_TEXTURE_MAX_ANISOTROPY_EXT,
      .texParameterf GL_TEXTURE_2D GL_TEXTURE_MAX_ANISOTROPY_EXT aniso])
  else (self, [])

/-- The method `void Texture::update(const TexMipmapData &data)`: the texture after the call
and the calls issued. -/
def Texture.update (self : Texture) (data : TexMipmapData) : Texture × List GLCall :=
  match data.data with
  | some payload =>
    if self.created then
      (self,
       [.bindTexture GL_TEXTURE_2D self.id]
       ++ (if data.compressed then
            [.compressedTexImage2D GL_TEXTURE_2D data.level data.internalFormat
              data.width data.height 0 data.size_or_type payload]
          else
            [.texImage2D GL_TEXTURE_2D data.level data.internalFormat
              data.width data.height 0 data.internalFormat data.size_or_type payload])
       ++ (if self.base_level = -1 ∨ data.level < self.base_level then
            [.texParameteri GL_TEXTURE_2D GL_TEXTURE_BASE_LEVEL data.level]
          else [])
       ++ (if self.max_level = -1 ∨ data.level > self.max_level then
            [.texParameteri GL_TEXTURE_2D GL_TEXTURE_MAX_LEVEL data.level]
          else []))
    else (self, [])
  | none => (self, [])

/-- A sequence of `Texture::update` calls, one per element of `ds`: the texture
after the last call and all calls issued. -/
def updateAll (self : Texture) : List TexMipmapData → Texture × List GLCall
  | [] => (self, [])
  | d :: ds =>
    let r := Texture.update self d
    let rs := updateAll r.1 ds
    (rs.1, r.2 ++ rs.2)

/-- The value a texture parameter was last set to by `glTexParameteri` in a
sequence of calls, if it was set at all. -/
def lastTexParameteri (pname : GLenum) : List GLCall → Option Int
  | [] => none
  | c :: cs =>
    match lastTexParameteri pname cs with
    | some v => some v
    | none =>
      match c with
      | .texParameteri _ p v => if p = pname then some v else none
      | _ => none


/-! ## Vocabulary of the properties -/

/-- Rounding of a rational to the nearest integer, ties to the even one: the
significand computed by `roundNearestEven`. -/
def roundHalfEven (t : ℚ) : Int :=
  let f : Int := t.floor
  let r := t - f
  if r < 1 / 2 then f else if 1 / 2 < r then f + 1 else if f % 2 = 0 then f else f + 1

/-- The texture coordinates `(theta, 1.0f-phi)` of a vertex write, with its byte
offset: what identifies the grid point a vertex record belongs to. -/
def uvOf (w : BufferWrite ℚ) : Int × List ℚ := (w.offset, w.data.drop 4)

/-- The vertex write reduced to its byte offset and texture coordinates; it
involves neither `cos` nor `sin`. -/
def uvWrite (phi theta : ℚ) (offset : Int) : Int × List ℚ :=
  (wrap32 (offset * PLANET_STRIDE), [theta, toFloat (1 - phi)])

/-- The write issued by the index loops in iteration `(i, j)`: the loops are
`i`-major with `theta_res` iterations per `i`, so it is write number
`i*theta_res + j`. -/
def cellWrite (ws : List (BufferWrite Int)) (theta_res i j : Int) : Option (BufferWrite Int) :=
  ws[(i * theta_res + j).toNat]?

/-- The positions in the vertex buffer of the four corners `(i,j)`, `(i+1,j)`,
`(i+1,j+1)`, `(i,j+1)` of a grid cell, the vertex of row `r` and column `c` being
the one at position `r*(theta_res+1)+c`. -/
def cornerPositions (theta_res i j : Int) : List Int :=
  [i * (theta_res + 1) + j, (i + 1) * (theta_res + 1) + j,
   (i + 1) * (theta_res + 1) + (j + 1), i * (theta_res + 1) + (j + 1)]

/-- The triangles a six-index record draws under `GL_TRIANGLES`: consecutive
triples. -/
def triangles : List Int → List (Int × Int × Int)
  | [a, b, c, d, e, f] => [(a, b, c), (d, e, f)]
  | _ => []

/-- The three ways of listing a triangle in the same cyclic order. -/
def rotations (t : Int × Int × Int) : List (Int × Int × Int) :=
  [(t.1, t.2.1, t.2.2), (t.2.1, t.2.2, t.1), (t.2.2, t.1, t.2.1)]

/-- A triangle listed backwards. -/
def reversed (t : Int × Int × Int) : Int × Int × Int := (t.2.2, t.2.1, t.1)

/-- Triangle `s` lists the vertex indices of triangle `t` in the opposite cyclic
order (and not in the same one). -/
def OppositeCyclicOrder (t s : Int × Int × Int) : Prop :=
  s ∈ rotations (reversed t) ∧ s ∉ rotations t

instance (t s : Int × Int × Int) : Decidable (OppositeCyclicOrder t s) := by
  unfold OppositeCyclicOrder
  infer_instance

/-! ## Machine integers: wrap-around -/

theorem wrap32_of_range (x : Int) (h1 : -2147483648 ≤ x) (h2 : x < 2147483648) :
    wrap32 x = x := by
  unfold wrap32
  omega

theorem wrap32_add_left (x y : Int) : wrap32 (wrap32 x + y) = wrap32 (x + y) := by
  unfold wrap32
  omega

theorem wrap32_zero : wrap32 0 = 0 := by decide

/-! ## The index loops -/

theorem jLoop_eq (phi_res exterior i : Int) (n : Nat) (j offset : Int) :
    jLoop phi_res exterior i n (wrap32 j) (wrap32 offset) =
      ((List.range n).map (fun k : Nat =>
          (⟨wrap32 (wrap32 (offset + k) * 24), 24,
            indices phi_res exterior i (wrap32 (j + k))⟩ : BufferWrite Int)),
        wrap32 (offset + n)) := by
  induction n generalizing j offset with
  | zero => simp [jLoop]
  | succ n ih =>
    rw [jLoop, wrap32_add_left, wrap32_add_left, ih, List.range_succ_eq_map]
    simp only [List.map_cons, List.map_map, Nat.cast_zero, add_zero, Nat.cast_succ]
    refine Prod.ext ?_ ?_
    · simp only [List.cons.injEq, true_and]
      apply List.map_congr_left
      intro k _
      simp only [Function.comp, Nat.cast_succ]
      rw [show offset + 1 + (k : Int) = offset + ((k : Int) + 1) by ring,
        show j + 1 + (k : Int) = j + ((k : Int) + 1) by ring]
    · simp only []
      rw [show offset + 1 + (n : Int) = offset + ((n : Int) + 1) by ring]

theorem jLoop_length (phi_res exterior i : Int) (n : Nat) (j offset : Int) :
    (jLoop phi_res exterior i n (wrap32 j) (wrap32 offset)).1.length = n := by
  simp [jLoop_eq]

theorem jLoop_getElem (phi_res exterior i : Int) (n : Nat) (j offset : Int) (k : Nat)
    (hk : k < n) :
    (jLoop phi_res exterior i n (wrap32 j) (wrap32 offset)).1[k]? =
      some ⟨wrap32 (wrap32 (offset + k) * 24), 24,
        indices phi_res exterior i (wrap32 (j + k))⟩ := by
  simp [jLoop_eq, List.getElem?_range hk, hk]

theorem jLoop_zero_eq (phi_res exterior i : Int) (n : Nat) (offset : Int) :
    jLoop phi_res exterior i n 0 (wrap32 offset) =
      ((List.range n).map (fun k : Nat =>
          (⟨wrap32 (wrap32 (offset + k) * 24), 24,
            indices phi_res exterior i (wrap32 k)⟩ : BufferWrite Int)),
        wrap32 (offset + n)) := by
  have h := jLoop_eq phi_res exterior i n 0 offset
  simp only [wrap32_zero, zero_add] at h
  exact h

theorem iLoop_unfold (theta_res phi_res exterior : Int) (n : Nat) (i offset : Int) :
    iLoop theta_res phi_res exterior (n + 1) (wrap32 i) (wrap32 offset) =
      ((jLoop phi_res exterior (wrap32 i) theta_res.toNat 0 (wrap32 offset)).1
          ++ (iLoop theta_res phi_res exterior n (wrap32 (i + 1))
            (wrap32 (offset + theta_res.toNat))).1,
        (iLoop theta_res phi_res exterior n (wrap32 (i + 1))
            (wrap32 (offset + theta_res.toNat))).2) := by
  have h2 : (jLoop phi_res exterior (wrap32 i) theta_res.toNat 0 (wrap32 offset)).2
      = wrap32 (offset + theta_res.toNat) := by rw [jLoop_zero_eq]
  rw [iLoop]
  simp only [wrap32_add_left, h2]

theorem iLoop_snd (theta_res phi_res exterior : Int) (n : Nat) (i offset : Int) :
    (iLoop theta_res phi_res exterior n (wrap32 i) (wrap32 offset)).2
      = wrap32 (offset + n * theta_res.toNat) := by
  induction n generalizing i offset with
  | zero => simp [iLoop]
  | succ n ih =>
    rw [iLoop_unfold]
    simp only [ih, Nat.cast_succ]
    congr 1
    ring

theorem iLoop_length (theta_res phi_res exterior : Int) (n : Nat) (i offset : Int) :
    (iLoop theta_res phi_res exterior n (wrap32 i) (wrap32 offset)).1.length
      = n * theta_res.toNat := by
  induction n generalizing i offset with
  | zero => simp [iLoop]
  | succ n ih =>
    rw [iLoop_unfold]
    simp only [List.length_append, ih, jLoop_zero_eq, List.length_map, List.length_range]
    ring

theorem iLoop_getElem (theta_res phi_res exterior : Int) (n : Nat) (i offset : Int)
    (a k : Nat) (ha : a < n) (hk : k < theta_res.toNat) :
    (iLoop theta_res phi_res exterior n (wrap32 i) (wrap32 offset)).1[a * theta_res.toNat + k]? =
      some ⟨wrap32 (wrap32 (offset + (a * theta_res.toNat + k : Nat)) * 24), 24,
        indices phi_res exterior (wrap32 (i + a)) (wrap32 k)⟩ := by
  induction n generalizing i offset a with
  | zero => omega
  | succ n ih =>
    rw [iLoop_unfold]
    simp only []
    have hjl : (jLoop phi_res exterior (wrap32 i) theta_res.toNat 0
        (wrap32 offset)).1.length = theta_res.toNat := by
      simp [jLoop_zero_eq]
    cases a with
    | zero =>
      rw [List.getElem?_append_left (by simpa [hjl] using hk)]
      simp [jLoop_zero_eq, List.getElem?_range hk, hk]
    | succ a =>
      have hlen : (jLoop phi_res exterior (wrap32 i) theta_res.toNat 0
          (wrap32 offset)).1.length ≤ (a + 1) * theta_res.toNat + k := by
        rw [hjl]; nlinarith
      rw [List.getElem?_append_right hlen, hjl]
      have hidx : (a + 1) * theta_res.toNat + k - theta_res.toNat = a * theta_res.toNat + k := by
        rw [Nat.succ_mul]; omega
      rw [hidx, ih _ _ a (by omega)]
      simp only [Option.some.injEq]
      congr 3
      · push_cast; ring_nf
      · push_cast; ring

/-! ## The vertex loops -/

theorem thetaLoop_map {β γ : Type} (f : β → γ) (body : ℚ → Int → β) (theta_res : Int)
    (fuel : Nat) (theta : ℚ) (offset : Int) :
    thetaLoop (fun t o => f (body t o)) theta_res fuel theta offset =
      (thetaLoop body theta_res fuel theta offset).map (fun r => (r.1.map f, r.2)) := by
  induction fuel generalizing theta offset with
  | zero => simp [thetaLoop]
  | succ fuel ih =>
    rw [thetaLoop, thetaLoop]
    split
    · cases floatStep theta theta_res with
      | none => simp
      | some theta' =>
        simp only [ih, Option.map_map]
        rfl
    · simp

theorem phiLoop_map {β γ : Type} (f : β → γ) (body : ℚ → ℚ → Int → β)
    (theta_res phi_res : Int) (inner fuel : Nat) (phi : ℚ) (offset : Int) :
    phiLoop (fun p t o => f (body p t o)) theta_res phi_res inner fuel phi offset =
      (phiLoop body theta_res phi_res inner fuel phi offset).map
        (fun r => (r.1.map f, r.2)) := by
  induction fuel generalizing phi offset with
  | zero => simp [phiLoop]
  | succ fuel ih =>
    rw [phiLoop, phiLoop]
    split
    · rw [thetaLoop_map f (body phi)]
      cases thetaLoop (body phi) theta_res inner 0 offset with
      | none => simp
      | some row =>
        cases floatStep phi phi_res with
        | none => simp
        | some phi' =>
          simp only [Option.map_some', ih, Option.map_map]
          congr 1
          funext r
          simp
    · simp

theorem uvOf_vertexWrite (cos sin : ℚ → ℚ) :
    (fun p t o => uvOf (vertexWrite (machineArith cos sin) p t o)) = uvWrite := by
  funext p t o
  rfl

theorem generateSphere_uv (fuel : Nat) (cos sin : ℚ → ℚ) (vboName iboName : Nat)
    (self : Renderable) (theta_res phi_res exterior : Int) :
    (Renderable.generateSphere fuel (machineArith cos sin) vboName iboName self
        theta_res phi_res exterior).map (fun r => (r.2.vboBytes, r.2.vertexWrites.map uvOf)) =
      (phiLoop uvWrite theta_res phi_res fuel fuel 0 0).map
        (fun r => (wrap32 (wrap32 (wrap32 (theta_res + 1) * wrap32 (phi_res + 1)) * PLANET_STRIDE),
          r.1)) := by
  rw [← uvOf_vertexWrite cos sin, phiLoop_map uvOf, Renderable.generateSphere]
  cases phiLoop (vertexWrite (machineArith cos sin)) theta_res phi_res fuel fuel 0 0 with
  | none => rfl
  | some verts => rfl


theorem generateSphere_vertex_count (fuel : Nat) (cos sin : ℚ → ℚ) (vboName iboName : Nat)
    (self : Renderable) (theta_res phi_res exterior : Int) :
    (Renderable.generateSphere fuel (machineArith cos sin) vboName iboName self
        theta_res phi_res exterior).map (fun r => (r.2.vboBytes, r.2.vertexWrites.length)) =
      (phiLoop uvWrite theta_res phi_res fuel fuel 0 0).map
        (fun r => (wrap32 (wrap32 (wrap32 (theta_res + 1) * wrap32 (phi_res + 1)) * PLANET_STRIDE),
          r.1.length)) := by
  have h := congrArg (Option.map (fun p : Int × List (Int × List ℚ) => (p.1, p.2.length)))
    (generateSphere_uv fuel cos sin vboName iboName self theta_res phi_res exterior)
  rw [Option.map_map, Option.map_map] at h
  have e1 : ((fun p : Int × List (Int × List ℚ) => (p.1, p.2.length)) ∘
      fun r : Renderable × SphereUpload => (r.2.vboBytes, r.2.vertexWrites.map uvOf)) =
      fun r => (r.2.vboBytes, r.2.vertexWrites.length) := by
    funext r
    simp
  rw [e1] at h
  exact h

theorem generateSphere_index (fuel : Nat) (A : Arith ℚ) (vboName iboName : Nat)
    (self : Renderable) (theta_res phi_res exterior : Int) (r : Renderable × SphereUpload)
    (h : Renderable.generateSphere fuel A vboName iboName self theta_res phi_res exterior
      = some r) :
    r.2.indexWrites = (indexPhase theta_res phi_res exterior).1
      ∧ r.1.count = (indexPhase theta_res phi_res exterior).2 := by
  unfold Renderable.generateSphere at h
  cases hv : phiLoop (vertexWrite A) theta_res phi_res fuel fuel 0 0 with
  | none => simp [hv] at h
  | some verts =>
    simp only [hv, Option.some.injEq] at h
    subst h
    exact ⟨rfl, rfl⟩

theorem generateSphere_vertices_exterior (fuel : Nat) (A : Arith ℚ) (vboName iboName : Nat)
    (self : Renderable) (theta_res phi_res exterior exterior' : Int) :
    (Renderable.generateSphere fuel A vboName iboName self theta_res phi_res exterior).map
        (fun r => r.2.vertexWrites) =
      (Renderable.generateSphere fuel A vboName iboName self theta_res phi_res exterior').map
        (fun r => r.2.vertexWrites) := by
  unfold Renderable.generateSphere
  cases phiLoop (vertexWrite A) theta_res phi_res fuel fuel 0 0 with
  | none => rfl
  | some verts => rfl

theorem generateSphere_eq (fuel : Nat) (A : Arith ℚ) (vboName iboName : Nat)
    (self : Renderable) (theta_res phi_res exterior : Int) :
    Renderable.generateSphere fuel A vboName iboName self theta_res phi_res exterior =
      (phiLoop (vertexWrite A) theta_res phi_res fuel fuel 0 0).map (fun verts =>
        ((⟨vboName, iboName, (indexPhase theta_res phi_res exterior).2⟩ : Renderable),
         (⟨wrap32 (wrap32 (wrap32 (theta_res + 1) * wrap32 (phi_res + 1)) * PLANET_STRIDE),
           verts.1, wrap32 (verts.2 * 24),
           (indexPhase theta_res phi_res exterior).1⟩ : SphereUpload))) := by
  unfold Renderable.generateSphere
  cases phiLoop (vertexWrite A) theta_res phi_res fuel fuel 0 0 with
  | none => rfl
  | some verts => rfl

theorem indices_length (phi_res exterior i j : Int) :
    (indices phi_res exterior i j).length = 6 := by
  unfold indices
  split <;> simp

theorem indexPhase_length (theta_res phi_res exterior : Int) :
    (indexPhase theta_res phi_res exterior).1.length = phi_res.toNat * theta_res.toNat := by
  have h := iLoop_length theta_res phi_res exterior phi_res.toNat 0 0
  rw [wrap32_zero] at h
  exact h

theorem indexPhase_count (theta_res phi_res exterior : Int) :
    (indexPhase theta_res phi_res exterior).2
      = wrap32 (wrap32 ((phi_res.toNat : Int) * theta_res.toNat) * 6) := by
  have h := iLoop_snd theta_res phi_res exterior phi_res.toNat 0 0
  rw [wrap32_zero, zero_add] at h
  unfold indexPhase
  simp only [h]

theorem iLoop_mem (theta_res phi_res exterior : Int) (n : Nat) (i offset : Int)
    (w : BufferWrite Int)
    (hw : w ∈ (iLoop theta_res phi_res exterior n (wrap32 i) (wrap32 offset)).1) :
    w.size = 24 ∧ w.data.length = 6 := by
  induction n generalizing i offset with
  | zero => simp [iLoop] at hw
  | succ n ih =>
    rw [iLoop_unfold] at hw
    simp only [List.mem_append] at hw
    rcases hw with hw | hw
    · rw [jLoop_zero_eq] at hw
      simp only [List.mem_map, List.mem_range] at hw
      obtain ⟨k, _, rfl⟩ := hw
      exact ⟨rfl, indices_length _ _ _ _⟩
    · exact ih _ _ hw

theorem indexPhase_mem (theta_res phi_res exterior : Int) (w : BufferWrite Int)
    (hw : w ∈ (indexPhase theta_res phi_res exterior).1) :
    w.size = 24 ∧ w.data.length = 6 := by
  have h := iLoop_mem theta_res phi_res exterior phi_res.toNat 0 0 w
  rw [wrap32_zero] at h
  exact h hw

theorem cellWrite_indexPhase (theta_res phi_res exterior i j : Int)
    (hi : 0 ≤ i) (hip : i < phi_res) (hj : 0 ≤ j) (hjt : j < theta_res)
    (hT : theta_res < 2147483648) (hP : phi_res < 2147483648) :
    cellWrite (indexPhase theta_res phi_res exterior).1 theta_res i j =
      some ⟨wrap32 (wrap32 (i * theta_res + j) * 24), 24, indices phi_res exterior i j⟩ := by
  have hwi : wrap32 i = i := wrap32_of_range i (by omega) (by omega)
  have hwj : wrap32 j = j := wrap32_of_range j (by omega) (by omega)
  lift i to ℕ using hi
  lift j to ℕ using hj
  have ht : ((theta_res.toNat : Nat) : Int) = theta_res := Int.toNat_of_nonneg (by omega)
  have hidx : ((i : Int) * theta_res + (j : Int)).toNat = i * theta_res.toNat + j := by
    rw [← ht]
    exact_mod_cast Int.toNat_natCast (i * theta_res.toNat + j)
  have h := iLoop_getElem theta_res phi_res exterior phi_res.toNat 0 0 i j (by omega)
    (by omega)
  rw [wrap32_zero, zero_add, zero_add, hwi, hwj] at h
  unfold cellWrite indexPhase
  simp only []
  rw [hidx, h]
  have hc : ((i * theta_res.toNat + j : Nat) : Int) = (i : Int) * theta_res + (j : Int) := by
    push_cast
    rw [ht]
  rw [hc]

theorem thetaLoop_fuel_succ {β : Type} (body : ℚ → Int → β) (theta_res : Int) (fuel : Nat)
    (theta : ℚ) (offset : Int) (r : List β × Int)
    (h : thetaLoop body theta_res fuel theta offset = some r) :
    thetaLoop body theta_res (fuel + 1) theta offset = some r := by
  induction fuel generalizing theta offset r with
  | zero => simp [thetaLoop] at h
  | succ fuel ih =>
    rw [thetaLoop] at h
    rw [thetaLoop]
    split
    · rename_i hle
      rw [if_pos hle] at h
      cases hs : floatStep theta theta_res with
      | none => rw [hs] at h; exact h
      | some theta' =>
        rw [hs] at h
        simp only [Option.map_eq_some'] at h
        obtain ⟨r', hr', rfl⟩ := h
        simp only [ih _ _ _ hr', Option.map_some']
    · rename_i hle
      rw [if_neg hle] at h
      exact h

theorem phiLoop_inner_succ {β : Type} (body : ℚ → ℚ → Int → β) (theta_res phi_res : Int)
    (inner fuel : Nat) (phi : ℚ) (offset : Int) (r : List β × Int)
    (h : phiLoop body theta_res phi_res inner fuel phi offset = some r) :
    phiLoop body theta_res phi_res (inner + 1) fuel phi offset = some r := by
  induction fuel generalizing phi offset r with
  | zero => simp [phiLoop] at h
  | succ fuel ih =>
    rw [phiLoop] at h
    rw [phiLoop]
    split
    · rename_i hle
      rw [if_pos hle] at h
      cases ht : thetaLoop (body phi) theta_res inner 0 offset with
      | none => rw [ht] at h; cases h
      | some row =>
        rw [ht] at h
        rw [thetaLoop_fuel_succ _ _ _ _ _ _ ht]
        cases hs : floatStep phi phi_res with
        | none => rw [hs] at h; exact h
        | some phi' =>
          rw [hs] at h
          simp only [Option.map_eq_some'] at h
          obtain ⟨r', hr', rfl⟩ := h
          simp only [ih _ _ _ hr', Option.map_some']
    · rename_i hle
      rw [if_neg hle] at h
      exact h

theorem phiLoop_fuel_succ {β : Type} (body : ℚ → ℚ → Int → β) (theta_res phi_res : Int)
    (inner fuel : Nat) (phi : ℚ) (offset : Int) (r : List β × Int)
    (h : phiLoop body theta_res phi_res inner fuel phi offset = some r) :
    phiLoop body theta_res phi_res inner (fuel + 1) phi offset = some r := by
  induction fuel generalizing phi offset r with
  | zero => simp [phiLoop] at h
  | succ fuel ih =>
    rw [phiLoop] at h
    rw [phiLoop]
    split
    · rename_i hle
      rw [if_pos hle] at h
      cases ht : thetaLoop (body phi) theta_res inner 0 offset with
      | none => rw [ht] at h; cases h
      | some row =>
        rw [ht] at h
        cases hs : floatStep phi phi_res with
        | none => rw [hs] at h; exact h
        | some phi' =>
          rw [hs] at h
          simp only [Option.map_eq_some'] at h
          obtain ⟨r', hr', rfl⟩ := h
          simp only [ih _ _ _ hr', Option.map_some']
    · rename_i hle
      rw [if_neg hle] at h
      exact h

theorem phiLoop_fuel_le {β : Type} (body : ℚ → ℚ → Int → β) (theta_res phi_res : Int)
    (fuel fuel' : Nat) (hle : fuel ≤ fuel') (r : List β × Int)
    (h : phiLoop body theta_res phi_res fuel fuel 0 0 = some r) :
    phiLoop body theta_res phi_res fuel' fuel' 0 0 = some r := by
  induction fuel' with
  | zero =>
    have h0 : fuel = 0 := by omega
    rw [h0] at h
    exact h
  | succ n ih =>
    rcases Nat.lt_or_ge n fuel with hlt | hge
    · have hn : fuel = n + 1 := by omega
      rw [hn] at h
      exact h
    · exact phiLoop_inner_succ _ _ _ _ _ _ _ _ (phiLoop_fuel_succ _ _ _ _ _ _ _ _ (ih hge))

theorem generateSphere_uv_fuel (fuel k : Nat) (cos sin : ℚ → ℚ) (vboName iboName : Nat)
    (self : Renderable) (theta_res phi_res exterior : Int) (v : Int × List (Int × List ℚ))
    (h : (phiLoop uvWrite theta_res phi_res fuel fuel 0 0).map
        (fun r => (wrap32 (wrap32 (wrap32 (theta_res + 1) * wrap32 (phi_res + 1)) * PLANET_STRIDE),
          r.1)) = some v) :
    (Renderable.generateSphere (fuel + k) (machineArith cos sin) vboName iboName self
        theta_res phi_res exterior).map (fun r => (r.2.vboBytes, r.2.vertexWrites.map uvOf))
      = some v := by
  rw [generateSphere_uv]
  cases hr : phiLoop uvWrite theta_res phi_res fuel fuel 0 0 with
  | none => rw [hr] at h; cases h
  | some r =>
    rw [hr] at h
    rw [phiLoop_fuel_le uvWrite theta_res phi_res fuel (fuel + k) (by omega) r hr]
    exact h

theorem generateSphere_vertex_count_fuel (fuel k : Nat) (cos sin : ℚ → ℚ)
    (vboName iboName : Nat) (self : Renderable) (theta_res phi_res exterior : Int)
    (v : Int × Nat)
    (h : (phiLoop uvWrite theta_res phi_res fuel fuel 0 0).map
        (fun r => (wrap32 (wrap32 (wrap32 (theta_res + 1) * wrap32 (phi_res + 1)) * PLANET_STRIDE),
          r.1.length)) = some v) :
    (Renderable.generateSphere (fuel + k) (machineArith cos sin) vboName iboName self
        theta_res phi_res exterior).map (fun r => (r.2.vboBytes, r.2.vertexWrites.length))
      = some v := by
  rw [generateSphere_vertex_count]
  cases hr : phiLoop uvWrite theta_res phi_res fuel fuel 0 0 with
  | none => rw [hr] at h; cases h
  | some r =>
    rw [hr] at h
    rw [phiLoop_fuel_le uvWrite theta_res phi_res fuel (fuel + k) (by omega) r hr]
    exact h

/-- The rounding functions on three well-known constants: `0.1` as a `double`,
`0.1f` and `1.0f/3`. -/
theorem rounding_known_values :
    toDouble (1 / 10) = 3602879701896397 / 2 ^ 55
    ∧ toFloat (1 / 10) = 13421773 / 2 ^ 27
    ∧ toFloat (1 / 3) = 11184811 / 2 ^ 25 := by
  decide!

theorem generateSphere_returns (fuel k : Nat) (cos sin : ℚ → ℚ) (vboName iboName : Nat)
    (self : Renderable) (theta_res phi_res exterior : Int)
    (h : (phiLoop uvWrite theta_res phi_res fuel fuel 0 0).isSome = true) :
    ∃ r, Renderable.generateSphere (fuel + k) (machineArith cos sin) vboName iboName self
        theta_res phi_res exterior = some r
      ∧ r.2.indexWrites = (indexPhase theta_res phi_res exterior).1
      ∧ r.1.count = (indexPhase theta_res phi_res exterior).2 := by
  cases hr : phiLoop uvWrite theta_res phi_res fuel fuel 0 0 with
  | none => rw [hr] at h; cases h
  | some v =>
    have hv := generateSphere_uv_fuel fuel k cos sin vboName iboName self theta_res phi_res
      exterior _ (by rw [hr]; rfl)
    cases hg : Renderable.generateSphere (fuel + k) (machineArith cos sin) vboName iboName
        self theta_res phi_res exterior with
    | none => rw [hg] at hv; cases hv
    | some r =>
      exact ⟨r, rfl, generateSphere_index (fuel + k) _ vboName iboName self _ _ _ r hg⟩

theorem indices_opposite (phi_res exterior i j : Int) (hp : 1 ≤ phi_res)
    (hP : phi_res < 2147483648) (he : exterior ≠ 0)
    (hi : 0 ≤ i) (hip : i < phi_res) (hj : 0 ≤ j) (hjT : j < 2147483647) :
    ∃ t1 t2 s1 s2,
      triangles (indices phi_res exterior i j) = [t1, t2]
      ∧ triangles (indices phi_res 0 i j) = [s1, s2]
      ∧ OppositeCyclicOrder t1 s2
      ∧ OppositeCyclicOrder t2 s1 := by
  have hi1 : wrap32 (i + 1) = i + 1 := wrap32_of_range _ (by omega) (by omega)
  have hj1 : wrap32 (j + 1) = j + 1 := wrap32_of_range _ (by omega) (by omega)
  have hb : (i + 1) * wrap32 (phi_res + 1) = i * wrap32 (phi_res + 1) + wrap32 (phi_res + 1) := by
    ring
  have hW : wrap32 (phi_res + 1) = phi_res + 1 ∨ wrap32 (phi_res + 1) = -2147483648 := by
    unfold wrap32; omega
  refine ⟨(wrap32 (wrap32 (i * wrap32 (phi_res + 1)) + j),
      wrap32 (wrap32 (wrap32 (i + 1) * wrap32 (phi_res + 1)) + j),
      wrap32 (wrap32 (wrap32 (i + 1) * wrap32 (phi_res + 1)) + wrap32 (j + 1))),
    (wrap32 (wrap32 (wrap32 (i + 1) * wrap32 (phi_res + 1)) + wrap32 (j + 1)),
      wrap32 (wrap32 (i * wrap32 (phi_res + 1)) + wrap32 (j + 1)),
      wrap32 (wrap32 (i * wrap32 (phi_res + 1)) + j)),
    (wrap32 (wrap32 (i * wrap32 (phi_res + 1)) + j),
      wrap32 (wrap32 (i * wrap32 (phi_res + 1)) + wrap32 (j + 1)),
      wrap32 (wrap32 (wrap32 (i + 1) * wrap32 (phi_res + 1)) + wrap32 (j + 1))),
    (wrap32 (wrap32 (wrap32 (i + 1) * wrap32 (phi_res + 1)) + wrap32 (j + 1)),
      wrap32 (wrap32 (wrap32 (i + 1) * wrap32 (phi_res + 1)) + j),
      wrap32 (wrap32 (i * wrap32 (phi_res + 1)) + j)), ?_, ?_, ?_, ?_⟩
  · simp only [indices, he, if_false, triangles]
  · simp only [indices, if_true, List.set, triangles]
  · rw [hi1, hj1, hb]
    generalize i * wrap32 (phi_res + 1) = m
    generalize wrap32 (phi_res + 1) = W at hW
    simp only [OppositeCyclicOrder, rotations, reversed, List.mem_cons, Prod.mk.injEq,
      List.mem_singleton, List.not_mem_nil, or_false]
    refine ⟨Or.inl trivial, ?_⟩
    unfold wrap32
    rintro (⟨h, -, -⟩ | ⟨h, -, -⟩ | ⟨-, h, -⟩) <;> omega
  · rw [hi1, hj1, hb]
    generalize i * wrap32 (phi_res + 1) = m
    generalize wrap32 (phi_res + 1) = W at hW
    simp only [OppositeCyclicOrder, rotations, reversed, List.mem_cons, Prod.mk.injEq,
      List.mem_singleton, List.not_mem_nil, or_false]
    refine ⟨Or.inl trivial, ?_⟩
    unfold wrap32
    rintro (⟨h, -, -⟩ | ⟨h, -, -⟩ | ⟨-, h, -⟩) <;> omega

/-! ## Rounding: bounds -/

theorem log2Fuel_spec (fuel n : Nat) (h1 : 1 ≤ n) (hf : n ≤ fuel) :
    2 ^ log2Fuel fuel n ≤ n ∧ n < 2 ^ (log2Fuel fuel n + 1) := by
  induction fuel generalizing n with
  | zero => omega
  | succ fuel ih =>
    rw [log2Fuel]
    split
    · have : n = 1 := by omega
      subst this
      simp
    · have h2 : 1 ≤ n / 2 := by omega
      have h3 : n / 2 ≤ fuel := by omega
      obtain ⟨ha, hb⟩ := ih (n / 2) h2 h3
      rw [pow_succ, pow_succ]
      constructor <;> omega

theorem natLog2_spec (n : Nat) (h1 : 1 ≤ n) :
    2 ^ natLog2 n ≤ n ∧ n < 2 ^ (natLog2 n + 1) :=
  log2Fuel_spec n n h1 le_rfl

theorem pow2_eq (e : Int) : pow2 e = (2 : ℚ) ^ e := by
  unfold pow2
  split
  · rename_i h
    lift e to ℕ using h
    simp
  · rename_i h
    obtain ⟨n, hn⟩ : ∃ n : ℕ, e = -(n : Int) := ⟨(-e).toNat, by omega⟩
    subst hn
    simp [zpow_neg]

theorem pow2_pos (e : Int) : 0 < pow2 e := by
  rw [pow2_eq]
  positivity

theorem roundNearestEven_eq (prec : Nat) (emin : Int) (q : ℚ) :
    roundNearestEven prec emin q =
      if q = 0 then 0 else
        (if q < 0 then -1 else 1)
          * (roundHalfEven (|q| / pow2 (max (ilog2 q) emin - ((prec : Int) - 1))) : ℚ)
          * pow2 (max (ilog2 q) emin - ((prec : Int) - 1)) := rfl

theorem floor_le_self (t : ℚ) : ((t.floor : Int) : ℚ) ≤ t := Rat.le_floor.mp le_rfl

theorem lt_floor_add_one (t : ℚ) : t < ((t.floor : Int) : ℚ) + 1 := by
  by_contra h
  push_neg at h
  have h2 : t.floor + 1 ≤ t.floor := Rat.le_floor.mpr (by push_cast; exact h)
  omega

theorem roundHalfEven_nonneg (t : ℚ) (h : 0 ≤ t) : 0 ≤ roundHalfEven t := by
  have hf : (0 : Int) ≤ t.floor := Rat.le_floor.mpr (by simpa using h)
  unfold roundHalfEven
  simp only []
  split
  · exact hf
  · split
    · omega
    · split <;> omega

theorem roundHalfEven_le (t : ℚ) (M : Int) (h : t ≤ M) : roundHalfEven t ≤ M := by
  have h1 := floor_le_self t
  have hfM : t.floor ≤ M := by
    have : ((t.floor : Int) : ℚ) ≤ M := le_trans h1 h
    exact_mod_cast this
  unfold roundHalfEven
  simp only []
  split
  · exact hfM
  · rename_i hr
    rcases lt_or_eq_of_le hfM with hlt | heq
    · split
      · omega
      · split <;> omega
    · exfalso
      apply hr
      have : t = M := le_antisymm h (by rw [← heq]; exact h1)
      rw [heq, this]
      norm_num

theorem roundHalfEven_le_tie (t : ℚ) (M : Int) (hM : M % 2 = 0) (h : t ≤ M + 1 / 2) :
    roundHalfEven t ≤ M := by
  have h1 := floor_le_self t
  have hfM : t.floor ≤ M := by
    have : ((t.floor : Int) : ℚ) < M + 1 := by linarith
    have : t.floor < M + 1 := by exact_mod_cast this
    omega
  unfold roundHalfEven
  simp only []
  split
  · exact hfM
  · rcases lt_or_eq_of_le hfM with hlt | heq
    · split
      · omega
      · split <;> omega
    · split
      · rename_i hr
        exfalso
        rw [heq] at hr
        linarith
      · rw [heq, if_pos hM]

theorem abs_eq_natAbs_div_den (q : ℚ) : |q| = (q.num.natAbs : ℚ) / (q.den : ℚ) := by
  have h := Rat.num_div_den q
  conv_lhs => rw [← h]
  rw [abs_div, Nat.abs_cast, Nat.cast_natAbs, Int.cast_abs]

theorem ilog2_spec (q : ℚ) (hq : q ≠ 0) :
    (2 : ℚ) ^ ilog2 q ≤ |q| ∧ |q| < (2 : ℚ) ^ (ilog2 q + 1) := by
  have hN : 1 ≤ q.num.natAbs := by
    have : q.num ≠ 0 := Rat.num_ne_zero.mpr hq
    omega
  have hD : 1 ≤ q.den := q.den_pos
  obtain ⟨ha1, ha2⟩ := natLog2_spec _ hN
  obtain ⟨hb1, hb2⟩ := natLog2_spec _ hD
  have hDpos : (0 : ℚ) < q.den := by exact_mod_cast hD
  have ha1q : (2 : ℚ) ^ natLog2 q.num.natAbs ≤ (q.num.natAbs : ℚ) := by exact_mod_cast ha1
  have ha2q : (q.num.natAbs : ℚ) < (2 : ℚ) ^ (natLog2 q.num.natAbs + 1) := by
    exact_mod_cast ha2
  have hb1q : (2 : ℚ) ^ natLog2 q.den ≤ (q.den : ℚ) := by exact_mod_cast hb1
  have hb2q : (q.den : ℚ) < (2 : ℚ) ^ (natLog2 q.den + 1) := by exact_mod_cast hb2
  have habs := abs_eq_natAbs_div_den q
  have hpa : (0 : ℚ) < 2 ^ natLog2 q.num.natAbs := by positivity
  have hpb : (0 : ℚ) < 2 ^ natLog2 q.den := by positivity
  have hlow : (2 : ℚ) ^ (((natLog2 q.num.natAbs : Nat) : Int) - (natLog2 q.den : Nat) - 1)
      ≤ |q| := by
    rw [habs, sub_sub, zpow_sub₀ (by norm_num), zpow_natCast, le_div_iff₀ hDpos,
      div_mul_eq_mul_div, div_le_iff₀ (by positivity)]
    have e : (2 : ℚ) ^ (((natLog2 q.den : Nat) : Int) + 1) = 2 ^ (natLog2 q.den + 1) := by
      norm_cast
    rw [e]
    nlinarith
  have hhigh : |q| < (2 : ℚ) ^ (((natLog2 q.num.natAbs : Nat) : Int) - (natLog2 q.den : Nat)
      + 1) := by
    rw [habs, sub_add_eq_add_sub, zpow_sub₀ (by norm_num), zpow_natCast, div_lt_div_iff₀ hDpos hpb]
    have e : (2 : ℚ) ^ (((natLog2 q.num.natAbs : Nat) : Int) + 1)
        = 2 ^ (natLog2 q.num.natAbs + 1) := by
      norm_cast
    rw [e]
    nlinarith
  unfold ilog2
  simp only [pow2_eq]
  split
  · rename_i h
    exact ⟨h, hhigh⟩
  · rename_i h
    push_neg at h
    refine ⟨hlow, ?_⟩
    rw [sub_add_cancel]
    exact h

theorem roundNearestEven_nonneg (prec : Nat) (emin : Int) (q : ℚ) (hq : 0 ≤ q) :
    0 ≤ roundNearestEven prec emin q := by
  rw [roundNearestEven_eq]
  split
  · exact le_rfl
  · rw [if_neg (not_lt.mpr hq), one_mul]
    have hu := pow2_pos (max (ilog2 q) emin - ((prec : Int) - 1))
    have hn : (0 : ℚ) ≤ (roundHalfEven (|q| / pow2 (max (ilog2 q) emin - ((prec : Int) - 1)))
        : ℚ) := by
      exact_mod_cast roundHalfEven_nonneg _ (div_nonneg (abs_nonneg q) hu.le)
    exact mul_nonneg hn hu.le

theorem roundNearestEven_le (prec : Nat) (emin : Int) (q : ℚ) (hq : 0 < q) (E M : Int)
    (hE : ilog2 q ≤ E) (hemin : emin ≤ E)
    (hqU : q ≤ (M : ℚ) * (2 : ℚ) ^ (E - ((prec : Int) - 1))) :
    roundNearestEven prec emin q ≤ (M : ℚ) * (2 : ℚ) ^ (E - ((prec : Int) - 1)) := by
  rw [roundNearestEven_eq, if_neg hq.ne', if_neg (not_lt.mpr hq.le), one_mul, abs_of_pos hq,
    pow2_eq]
  have he : max (ilog2 q) emin ≤ E := max_le hE hemin
  generalize max (ilog2 q) emin = e at he
  obtain ⟨d, hd⟩ : ∃ d : ℕ, E = e + (d : Int) := ⟨(E - e).toNat, by omega⟩
  have hu : (0 : ℚ) < (2 : ℚ) ^ (e - ((prec : Int) - 1)) := by positivity
  have hsplit : (2 : ℚ) ^ (E - ((prec : Int) - 1))
      = (2 : ℚ) ^ d * (2 : ℚ) ^ (e - ((prec : Int) - 1)) := by
    rw [hd, show e + (d : Int) - ((prec : Int) - 1) = (d : Int) + (e - ((prec : Int) - 1)) by
      ring, zpow_add₀ (by norm_num), zpow_natCast]
  rw [hsplit, ← mul_assoc] at hqU ⊢
  have ht : q / (2 : ℚ) ^ (e - ((prec : Int) - 1)) ≤ ((M * 2 ^ d : Int) : ℚ) := by
    rw [div_le_iff₀ hu]
    push_cast
    exact hqU
  have hn := roundHalfEven_le _ _ ht
  have hn' : (roundHalfEven (q / (2 : ℚ) ^ (e - ((prec : Int) - 1))) : ℚ)
      ≤ (M : ℚ) * (2 : ℚ) ^ d := by
    exact_mod_cast hn
  exact mul_le_mul_of_nonneg_right hn' hu.le

theorem roundNearestEven_le_tie (prec : Nat) (emin : Int) (q : ℚ) (hq : 0 < q) (E M : Int)
    (he : max (ilog2 q) emin = E) (hM : M % 2 = 0)
    (hqU : q ≤ ((M : ℚ) + 1 / 2) * (2 : ℚ) ^ (E - ((prec : Int) - 1))) :
    roundNearestEven prec emin q ≤ (M : ℚ) * (2 : ℚ) ^ (E - ((prec : Int) - 1)) := by
  rw [roundNearestEven_eq, if_neg hq.ne', if_neg (not_lt.mpr hq.le), one_mul, abs_of_pos hq,
    pow2_eq, he]
  have hu : (0 : ℚ) < (2 : ℚ) ^ (E - ((prec : Int) - 1)) := by positivity
  have ht : q / (2 : ℚ) ^ (E - ((prec : Int) - 1)) ≤ (M : ℚ) + 1 / 2 := by
    rw [div_le_iff₀ hu]
    exact hqU
  have hn := roundHalfEven_le_tie _ M hM ht
  have hn' : (roundHalfEven (q / (2 : ℚ) ^ (E - ((prec : Int) - 1))) : ℚ) ≤ (M : ℚ) := by
    exact_mod_cast hn
  exact mul_le_mul_of_nonneg_right hn' hu.le

theorem ilog2_le_zero (q : ℚ) (hq : 0 < q) (h2 : q < 2) : ilog2 q ≤ 0 := by
  have h := (ilog2_spec q hq.ne').1
  rw [abs_of_pos hq] at h
  have hlt : (2 : ℚ) ^ ilog2 q < (2 : ℚ) ^ (1 : Int) := by
    rw [zpow_one]
    exact lt_of_le_of_lt h h2
  have := (zpow_lt_zpow_iff_right₀ (by norm_num : (1 : ℚ) < 2)).mp hlt
  omega

theorem ilog2_nonneg (q : ℚ) (hq : 1 ≤ q) : 0 ≤ ilog2 q := by
  have hpos : 0 < q := lt_of_lt_of_le one_pos hq
  have h := (ilog2_spec q hpos.ne').2
  rw [abs_of_pos hpos] at h
  have hlt : (2 : ℚ) ^ (0 : Int) < (2 : ℚ) ^ (ilog2 q + 1) := by
    rw [zpow_zero]
    exact lt_of_le_of_lt hq h
  have := (zpow_lt_zpow_iff_right₀ (by norm_num : (1 : ℚ) < 2)).mp hlt
  omega

/-- Adding `1.0/16777216` to a `float` between 0 and 1 gives a `float` between 0 and
1: at `1.0f` the sum `1 + 2^-24` is a tie and rounds back to `1.0f`. -/
theorem floatStep_stays (theta : ℚ) (h0 : 0 ≤ theta) (h1 : theta ≤ 1) :
    ∃ theta', floatStep theta 16777216 = some theta' ∧ 0 ≤ theta' ∧ theta' ≤ 1 := by
  have hstep : toDouble (1 / ((16777216 : Int) : ℚ)) = 1 / 16777216 := by decide!
  refine ⟨_, by rw [floatStep, if_neg (by decide)], ?_, ?_⟩
  · exact roundNearestEven_nonneg _ _ _ (roundNearestEven_nonneg _ _ _ (by rw [hstep]; positivity))
  · rw [hstep]
    have hx0 : 0 < theta + 1 / 16777216 := by positivity
    have hx1 : theta + 1 / 16777216 ≤ 1 + 1 / 16777216 := by linarith
    have hy0 : 0 ≤ toDouble (theta + 1 / 16777216) := roundNearestEven_nonneg _ _ _ hx0.le
    have hy1 : toDouble (theta + 1 / 16777216) ≤ 1 + 1 / 16777216 := by
      have h := roundNearestEven_le 53 (-1022) _ hx0 0 (2 ^ 52 + 2 ^ 28)
        (ilog2_le_zero _ hx0 (by linarith)) (by decide) (by norm_num; linarith)
      have e : (((2 ^ 52 + 2 ^ 28 : Int) : ℚ)) * (2 : ℚ) ^ ((0 : Int) - (((53 : Nat) : Int) - 1))
          = 1 + 1 / 16777216 := by norm_num
      rw [e] at h
      exact h
    generalize toDouble (theta + 1 / 16777216) = y at hy0 hy1
    rcases eq_or_lt_of_le hy0 with hz | hpos
    · rw [← hz]
      have : toFloat 0 = 0 := by decide!
      rw [this]
      exact zero_le_one
    · have e1 : (((2 ^ 23 : Int) : ℚ)) * (2 : ℚ) ^ ((0 : Int) - (((24 : Nat) : Int) - 1)) = 1 := by
        norm_num
      rcases le_or_lt y 1 with hle | hgt
      · have h := roundNearestEven_le 24 (-126) y hpos 0 (2 ^ 23)
          (ilog2_le_zero y hpos (by linarith)) (by decide) (by rw [e1]; exact hle)
        rw [e1] at h
        exact h
      · have hi : max (ilog2 y) (-126) = 0 := by
          have a := ilog2_le_zero y hpos (by linarith)
          have b := ilog2_nonneg y hgt.le
          omega
        have h := roundNearestEven_le_tie 24 (-126) y hpos 0 (2 ^ 23) hi (by decide)
          (by norm_num; linarith)
        rw [e1] at h
        exact h

theorem thetaLoop_never {β : Type} (body : ℚ → Int → β) (fuel : Nat) (theta : ℚ)
    (offset : Int) (h0 : 0 ≤ theta) (h1 : theta ≤ 1) :
    thetaLoop body 16777216 fuel theta offset = none := by
  induction fuel generalizing theta offset with
  | zero => rfl
  | succ fuel ih =>
    obtain ⟨theta', hs, h0', h1'⟩ := floatStep_stays theta h0 h1
    rw [thetaLoop, if_pos h1, hs]
    simp only [ih _ _ h0' h1', Option.map_none']

theorem phiLoop_never {β : Type} (body : ℚ → ℚ → Int → β) (phi_res : Int)
    (inner fuel : Nat) (offset : Int) :
    phiLoop body 16777216 phi_res inner fuel 0 offset = none := by
  cases fuel with
  | zero => rfl
  | succ fuel =>
    rw [phiLoop, if_pos zero_le_one, thetaLoop_never _ _ _ _ le_rfl zero_le_one]

theorem generateSphere_never (fuel : Nat) (A : Arith ℚ) (vboName iboName : Nat)
    (self : Renderable) (phi_res exterior : Int) :
    Renderable.generateSphere fuel A vboName iboName self 16777216 phi_res exterior = none := by
  rw [generateSphere_eq, phiLoop_never]
  rfl

/-! ## Properties of `Renderable::generateSphere` -/

/-- C1, at `theta_res = 4`, `phi_res = 2`, `exterior = 1` (with 8 units of fuel
or more, and any `cos` and `sin`): the vertex loops write
three rows of five vertices, so the corners of cell `(1, 0)` are at positions
`5, 10, 11, 6` of the vertex buffer (byte offsets `120, 240, 264, 144`); the
record written for that cell is `[3, 6, 7, 7, 4, 3]`, and its index `3` is none
of the four corners: it is the vertex of row 0, column 3. -/
theorem generateSphere_cell_indices_stride (k : Nat) (cos sin : ℚ → ℚ)
    (vboName iboName : Nat) (self : Renderable) :
    (Renderable.generateSphere (8 + k) (machineArith cos sin) vboName iboName self 4 2 1).map
        (fun r => (r.2.vboBytes, r.2.vertexWrites.map uvOf)) =
      some (360,
        [(0, [0, 1]), (24, [1 / 4, 1]), (48, [1 / 2, 1]), (72, [3 / 4, 1]), (96, [1, 1]),
         (120, [0, 1 / 2]), (144, [1 / 4, 1 / 2]), (168, [1 / 2, 1 / 2]),
         (192, [3 / 4, 1 / 2]), (216, [1, 1 / 2]),
         (240, [0, 0]), (264, [1 / 4, 0]), (288, [1 / 2, 0]), (312, [3 / 4, 0]),
         (336, [1, 0])])
    ∧ cornerPositions 4 1 0 = [5, 10, 11, 6]
    ∧ cellWrite (indexPhase 4 2 1).1 4 1 0 = some ⟨96, 24, [3, 6, 7, 7, 4, 3]⟩
    ∧ ¬ (∀ w, cellWrite (indexPhase 4 2 1).1 4 1 0 = some w →
          ∀ idx ∈ w.data, idx ∈ cornerPositions 4 1 0) := by
  refine ⟨?_, by decide, by decide, ?_⟩
  · exact generateSphere_uv_fuel 8 k cos sin vboName iboName self 4 2 1 _ (by decide!)
  · intro h
    have h3 := h ⟨96, 24, [3, 6, 7, 7, 4, 3]⟩ (by decide) 3 (by decide)
    revert h3
    decide

/-- C10, at `theta_res = 1`, `phi_res = 2`, `exterior = 1` (with 8 units of fuel
or more, and any `cos` and `sin`): the vertex buffer is
allocated for `(1+1)*(2+1) = 6` vertices (144 bytes) and six vertices are
written, while the index records are `[0,3,4,4,1,0]` and `[3,6,7,7,4,3]`: the
indices `6` and `7` are not below the number of vertices. -/
theorem generateSphere_index_out_of_range (k : Nat) (cos sin : ℚ → ℚ)
    (vboName iboName : Nat) (self : Renderable) :
    (Renderable.generateSphere (8 + k) (machineArith cos sin) vboName iboName self 1 2 1).map
        (fun r => (r.2.vboBytes, r.2.vertexWrites.length)) = some (6 * PLANET_STRIDE, 6)
    ∧ (indexPhase 1 2 1).1.map (fun w => w.data) = [[0, 3, 4, 4, 1, 0], [3, 6, 7, 7, 4, 3]]
    ∧ ¬ (∀ w ∈ (indexPhase 1 2 1).1, ∀ idx ∈ w.data,
          0 ≤ idx ∧ idx < ((1 : Int) + 1) * (2 + 1)) := by
  refine ⟨?_, by decide, by decide⟩
  exact generateSphere_vertex_count_fuel 8 k cos sin vboName iboName self 1 2 1 _ (by decide!)

/-- C6, at `theta_res = 10`: the `float` counter `theta` passes `1.0` after ten
additions of `1.0/10` (its eleventh value is `1 + 2^-23`), so the inner loop runs
10 times, not 11; with `phi_res = 1` the vertex loops write 20 records into a
buffer allocated for `(10+1)*(1+1) = 22`.  At `theta_res = 4`, `phi_res = 2`, where
both steps are exact, 15 records are written into a buffer allocated for 15.
Both hold with 16 units of fuel or more and for any `cos`, `sin` and
`exterior`. -/
theorem generateSphere_vertex_loop_count (k : Nat) (cos sin : ℚ → ℚ)
    (vboName iboName : Nat) (self : Renderable) (exterior : Int) :
    (Renderable.generateSphere (16 + k) (machineArith cos sin) vboName iboName self 10 1
        exterior).map (fun r => (r.2.vboBytes, r.2.vertexWrites.length))
      = some (22 * PLANET_STRIDE, 20)
    ∧ (thetaLoop (fun theta _ => theta) 10 16 0 0).map (fun r => r.1.length) = some 10
    ∧ (thetaLoop (fun theta _ => theta) 10 16 0 0).bind
        (fun r => (r.1.getLast?).bind (fun theta => floatStep theta 10))
        = some (1 + 1 / 2 ^ 23)
    ∧ (Renderable.generateSphere (16 + k) (machineArith cos sin) vboName iboName self 4 2
        exterior).map (fun r => (r.2.vboBytes, r.2.vertexWrites.length))
      = some (15 * PLANET_STRIDE, 15) := by
  refine ⟨?_, by decide!, by decide!, ?_⟩
  · exact generateSphere_vertex_count_fuel 16 k cos sin vboName iboName self 10 1 exterior _
      (by decide!)
  · exact generateSphere_vertex_count_fuel 16 k cos sin vboName iboName self 4 2 exterior _
      (by decide!)

/-- C9: in exact real arithmetic (no rounding, the real cosine and sine, any
value of the constant `PI`) the vertex record of parameters `(theta, phi)` is
`[x, y, z, 1, theta, 1 - phi]` with `x = cos(PI*(phi-0.5))*cos(2*PI*theta)`,
`y = cos(PI*(phi-0.5))*sin(2*PI*theta)`, `z = sin(PI*(phi-0.5))`, and
`x^2 + y^2 + z^2 = 1`. -/
theorem vertex_data_on_unit_sphere (PI theta phi : ℝ) :
    ∃ x y z : ℝ,
      vertex_data (⟨id, id, Real.cos, Real.sin, PI⟩ : Arith ℝ) theta phi
        = [x, y, z, 1, theta, 1 - phi]
      ∧ x = Real.cos (PI * (phi - 0.5)) * Real.cos (2 * PI * theta)
      ∧ y = Real.cos (PI * (phi - 0.5)) * Real.sin (2 * PI * theta)
      ∧ z = Real.sin (PI * (phi - 0.5))
      ∧ x ^ 2 + y ^ 2 + z ^ 2 = 1 := by
  have e1 : (0.5 : ℝ) = 1 / 2 := by norm_num
  have e2 : 2 * PI * theta = theta * PI * 2 := by ring
  refine ⟨_, _, _, rfl, ?_, ?_, ?_, ?_⟩
  · simp only [cosphi, costheta, id, e1, e2]
  · simp only [cosphi, sintheta, id, e1, e2]
  · simp only [sinphi, id, e1]
  · simp only [cosphi, sinphi, costheta, sintheta, id]
    have h1 := Real.cos_sq_add_sin_sq (PI * (phi - 1 / 2))
    have h2 := Real.cos_sq_add_sin_sq (theta * PI * 2)
    nlinarith [h1, h2]

/-! ## Properties of `Shader` -/

theorem uniformScan_no_match (name : String) (value : Bytes) (us : List Uniform)
    (h : ∀ u ∈ us, u.name ≠ name) : uniformScan name value us = [] := by
  induction us with
  | nil => rfl
  | cons u rest ih =>
    have hu : ¬ name = u.name := fun e => h u (List.mem_cons_self _ _) e.symm
    rw [uniformScan, if_neg hu]
    exact ih (fun v hv => h v (List.mem_cons_of_mem _ hv))

/-- C7: when no descriptor of the uniform table has the given name,
`Shader::uniform` returns with the shader, and so its uniform table, unchanged
and without having called any setter. -/
theorem uniform_unregistered_name (self : Shader) (name : String) (value : Bytes)
    (h : ∀ u ∈ self.uniforms, u.name ≠ name) :
    Shader.uniform self name value = (self, []) := by
  rw [Shader.uniform, uniformScan_no_match name value self.uniforms h]

theorem uniform_unregistered_name_witness :
    (∀ u ∈ ([⟨"view", 0, 1, true, .glUniformMatrix4fv⟩,
             ⟨"gamma", 1, 1, false, .glUniform1fv⟩] : List Uniform), u.name ≠ "exposure")
    ∧ Shader.uniform ⟨3, [⟨"view", 0, 1, true, .glUniformMatrix4fv⟩,
          ⟨"gamma", 1, 1, false, .glUniform1fv⟩]⟩ "exposure" [1, 2, 3, 4]
        = (⟨3, [⟨"view", 0, 1, true, .glUniformMatrix4fv⟩,
            ⟨"gamma", 1, 1, false, .glUniform1fv⟩]⟩, []) :=
  ⟨by decide, uniform_unregistered_name _ "exposure" [1, 2, 3, 4] (by decide)⟩

/-- C3, on the path where linking fails: whatever else the graphics library
answers, `Shader::load` creates the two stage objects, returns `false`, and has
issued no `glDeleteShader` call; when linking succeeds both stages are
deleted. -/
theorem load_link_failure_keeps_stages (self : Shader) (gl : LoadAnswers)
    (vert_source frag_source : String) :
    (Shader.load self { gl with linkSuccess := 0 } vert_source frag_source).ret = false
    ∧ GLCall.createShader GL_VERTEX_SHADER
        ∈ (Shader.load self { gl with linkSuccess := 0 } vert_source frag_source).calls
    ∧ GLCall.createShader GL_FRAGMENT_SHADER
        ∈ (Shader.load self { gl with linkSuccess := 0 } vert_source frag_source).calls
    ∧ (∀ shader : Nat, GLCall.deleteShader shader
        ∉ (Shader.load self { gl with linkSuccess := 0 } vert_source frag_source).calls)
    ∧ (Shader.load self { gl with linkSuccess := 1 } vert_source frag_source).ret = true
    ∧ GLCall.deleteShader gl.vertex_id
        ∈ (Shader.load self { gl with linkSuccess := 1 } vert_source frag_source).calls
    ∧ GLCall.deleteShader gl.fragment_id
        ∈ (Shader.load self { gl with linkSuccess := 1 } vert_source frag_source).calls := by
  refine ⟨?_, ?_, ?_, ?_, ?_, ?_, ?_⟩ <;> simp [Shader.load]

/-! ## Properties of `Texture` -/

theorem update_fst (self : Texture) (data : TexMipmapData) :
    (Texture.update self data).1 = self := by
  unfold Texture.update
  split
  · split <;> rfl
  · rfl

theorem updateAll_fst (self : Texture) (ds : List TexMipmapData) :
    (updateAll self ds).1 = self := by
  induction ds generalizing self with
  | nil => rfl
  | cons d ds ih => rw [updateAll]; simp only [ih, update_fst]

/-- C8: with a null payload, or on a texture that is not created,
`Texture::update` issues no call and returns the texture unchanged (`created`,
`id`, `base_level` and `max_level` included). -/
theorem update_null_or_uncreated (self : Texture) (data : TexMipmapData)
    (h : data.data = none ∨ self.created = false) :
    Texture.update self data = (self, []) := by
  unfold Texture.update
  rcases h with h | h
  · rw [h]
  · rw [h]
    cases data.data <;> rfl

theorem update_null_or_uncreated_witness :
    ((⟨true, 5, 33777, 64, 64, 4096, none⟩ : TexMipmapData).data = none
      ∨ (⟨true, 7, 4, 1⟩ : Texture).created = false)
    ∧ Texture.update ⟨true, 7, 4, 1⟩ ⟨true, 5, 33777, 64, 64, 4096, none⟩
        = (⟨true, 7, 4, 1⟩, []) :=
  ⟨Or.inl rfl, update_null_or_uncreated _ _ (Or.inl rfl)⟩

/-- C2: `Texture::update` never assigns `base_level` or `max_level`, so after any
sequence of updates the texture is the one before it.  On a created texture,
after uploads at levels 0, 4, 2 both fields are still `-1` and the values last
set for `GL_TEXTURE_BASE_LEVEL` and `GL_TEXTURE_MAX_LEVEL` are both 2, the level
of the last upload, where the levels uploaded range from 0 to 4. -/
theorem update_level_range_not_tracked :
    (∀ (self : Texture) (ds : List TexMipmapData), (updateAll self ds).1 = self)
    ∧ (∀ (id name : Nat) (aniso : ℚ),
        ((Texture.ctor id).create name aniso).1 = ⟨true, name, -1, -1⟩
        ∧ (updateAll ((Texture.ctor id).create name aniso).1
            [⟨false, 0, 6408, 16, 16, 5121, some [0]⟩,
             ⟨false, 4, 6408, 1, 1, 5121, some [0]⟩,
             ⟨false, 2, 6408, 4, 4, 5121, some [0]⟩]).1 = ⟨true, name, -1, -1⟩
        ∧ lastTexParameteri GL_TEXTURE_BASE_LEVEL
            (updateAll ((Texture.ctor id).create name aniso).1
              [⟨false, 0, 6408, 16, 16, 5121, some [0]⟩,
               ⟨false, 4, 6408, 1, 1, 5121, some [0]⟩,
               ⟨false, 2, 6408, 4, 4, 5121, some [0]⟩]).2 = some 2
        ∧ lastTexParameteri GL_TEXTURE_MAX_LEVEL
            (updateAll ((Texture.ctor id).create name aniso).1
              [⟨false, 0, 6408, 16, 16, 5121, some [0]⟩,
               ⟨false, 4, 6408, 1, 1, 5121, some [0]⟩,
               ⟨false, 2, 6408, 4, 4, 5121, some [0]⟩]).2 = some 2) := by
  refine ⟨updateAll_fst, ?_⟩
  intro id name aniso
  refine ⟨rfl, rfl, ?_, ?_⟩
  · simp [updateAll, Texture.update, Texture.create, Texture.ctor, lastTexParameteri,
      GL_TEXTURE_BASE_LEVEL, GL_TEXTURE_MAX_LEVEL]
  · simp [updateAll, Texture.update, Texture.create, Texture.ctor, lastTexParameteri,
      GL_TEXTURE_BASE_LEVEL, GL_TEXTURE_MAX_LEVEL]

end Roche
